import Mathlib

/-
  Verification of the ai-scenario-builder pipeline.

  Shallow embedding of the core pipeline of the repository:
  - `analyzeDescription` (classifier)          — backend/src/utils/mockAI.js
  - `generateStepsForType` (step generator)    — backend/src/utils/mockAI.js
  - `generateSummary`                          — backend/src/utils/mockAI.js
  - `generateMermaidDiagram`, `escapeLabel`    — diagram generator
  - `extractEntities`, `generateDataModel`     — schema generator
  - `generateWorkflow` (orchestrator)          — backend/src/services/workflowService.js
  - `generateScenario` (controller validation) — scenario controller

  JavaScript strings are modelled as Lean `String` / `List Char`;
  `String.prototype.includes` as `List.isInfixOf` on the char lists;
  JavaScript `Set` (insertion-ordered, deduplicated) as a `List String`
  grown by an add-if-absent operation; object-literal lookup tables as
  association lists probed in insertion order (JS object string keys
  iterate in insertion order).
-/

namespace ScenarioBuilder

/-- A workflow step, as produced by the step templates
(`{id, name, description, type}` objects in the source). -/
structure Step where
  id : Nat
  name : String
  description : String
  type : String
deriving DecidableEq

/-- Placeholder step used to model JS array indexing out of range
(never actually reached under the theorems' bounds hypotheses). -/
def dummyStep : Step := ⟨0, "", "", ""⟩

/-! ## Classifier (`analyzeDescription`, mockAI.js lines 42-66) -/

/-- The fixed, ordered category → keyword-set table (`types` in the source;
JS `Object.entries` iterates string keys in insertion order). -/
def types : List (String × List String) :=
  [ ("ecommerce", ["shop", "cart", "buy", "purchase", "order", "payment", "checkout", "product"]),
    ("auth", ["login", "signup", "register", "password", "authentication", "user account"]),
    ("booking", ["book", "reserve", "appointment", "schedule", "calendar"]),
    ("support", ["ticket", "support", "help", "issue", "complaint", "customer service"]),
    ("content", ["post", "blog", "article", "publish", "content", "write"]),
    ("workflow", ["approval", "review", "process", "workflow", "task", "assign"]),
    ("data", ["import", "export", "sync", "migrate", "transfer", "data"]),
    ("notification", ["notify", "alert", "email", "sms", "notification", "remind"]) ]

/-- JS `haystack.includes(needle)`: substring test, as a decidable check. -/
def strIncludes (haystack : List Char) (needle : String) : Bool :=
  decide (needle.toList <:+: haystack)

/-- `keywords.some(kw => lowerDesc.includes(kw))` for one category. -/
def matchesCat (lowerDesc : List Char) (kws : List String) : Bool :=
  kws.any (fun kw => strIncludes lowerDesc kw)

/-- The `for … break` loop over the category table: first matching
category wins, `general` if none matches. -/
def detectType : List (String × List String) → List Char → String
  | [], _ => "general"
  | (t, kws) :: rest, d => if matchesCat d kws then t else detectType rest d

/-- `analyzeDescription` (the detected type; the source also returns the
lower-cased description alongside, which callers ignore). -/
def analyzeDescription (description : String) : String :=
  detectType types (description.toList.map Char.toLower)

/-! ## Step generator (`generateStepsForType`, mockAI.js lines 74-182) -/

/-- The fixed per-category step templates (`templates` in the source),
as an insertion-ordered association list. -/
def templates : List (String × List Step) :=
  [ ("ecommerce",
      [ ⟨1, "Browse Products", "User browses available products", "user_action"⟩,
        ⟨2, "Add to Cart", "User adds selected items to shopping cart", "user_action"⟩,
        ⟨3, "Validate Cart", "System validates cart items and availability", "system_check"⟩,
        ⟨4, "Enter Shipping Info", "User provides shipping address", "user_input"⟩,
        ⟨5, "Select Payment Method", "User chooses payment option", "user_action"⟩,
        ⟨6, "Process Payment", "System processes the payment transaction", "system_action"⟩,
        ⟨7, "Payment Verification", "Verify payment success or failure", "decision"⟩,
        ⟨8, "Generate Order", "System creates order record", "system_action"⟩,
        ⟨9, "Send Confirmation", "Email confirmation sent to user", "notification"⟩,
        ⟨10, "Update Inventory", "System updates product inventory", "system_action"⟩ ]),
    ("auth",
      [ ⟨1, "Enter Credentials", "User enters username/email and password", "user_input"⟩,
        ⟨2, "Validate Input", "System validates input format", "system_check"⟩,
        ⟨3, "Check User Exists", "Database lookup for user record", "database_query"⟩,
        ⟨4, "Verify Password", "Compare password hash", "system_check"⟩,
        ⟨5, "Authentication Decision", "Determine if credentials are valid", "decision"⟩,
        ⟨6, "Generate Session", "Create session token or JWT", "system_action"⟩,
        ⟨7, "Log Authentication", "Record login attempt for security", "logging"⟩,
        ⟨8, "Redirect User", "Send user to dashboard or home", "navigation"⟩ ]),
    ("booking",
      [ ⟨1, "Select Service", "User chooses the service to book", "user_action"⟩,
        ⟨2, "Check Availability", "System checks available time slots", "system_check"⟩,
        ⟨3, "Display Slots", "Show available dates and times", "display"⟩,
        ⟨4, "Select Time Slot", "User picks preferred date and time", "user_action"⟩,
        ⟨5, "Enter Details", "User provides contact and booking details", "user_input"⟩,
        ⟨6, "Validate Booking", "System validates the booking request", "system_check"⟩,
        ⟨7, "Create Reservation", "System creates the booking record", "database_write"⟩,
        ⟨8, "Send Confirmation", "Email/SMS confirmation sent", "notification"⟩,
        ⟨9, "Add to Calendar", "Optional calendar integration", "integration"⟩ ]),
    ("support",
      [ ⟨1, "Open Ticket Form", "User accesses support request form", "navigation"⟩,
        ⟨2, "Select Category", "User chooses issue category", "user_action"⟩,
        ⟨3, "Describe Issue", "User describes the problem in detail", "user_input"⟩,
        ⟨4, "Attach Files", "User uploads supporting documents", "user_action"⟩,
        ⟨5, "Auto-Categorize", "AI analyzes and tags the ticket", "ai_process"⟩,
        ⟨6, "Priority Assignment", "System assigns priority level", "system_action"⟩,
        ⟨7, "Route to Agent", "Ticket assigned to appropriate agent", "system_action"⟩,
        ⟨8, "Notify User", "Confirmation sent with ticket number", "notification"⟩,
        ⟨9, "Notify Agent", "Agent receives new ticket alert", "notification"⟩ ]),
    ("content",
      [ ⟨1, "Create Draft", "User starts new content draft", "user_action"⟩,
        ⟨2, "Write Content", "User writes the main content", "user_input"⟩,
        ⟨3, "Add Media", "User uploads images or videos", "user_action"⟩,
        ⟨4, "Set Metadata", "User adds title, tags, category", "user_input"⟩,
        ⟨5, "Preview Content", "System renders preview", "display"⟩,
        ⟨6, "Content Validation", "System checks for required fields", "system_check"⟩,
        ⟨7, "Submit for Review", "Content sent for approval", "workflow_action"⟩,
        ⟨8, "Review Decision", "Reviewer approves or requests changes", "decision"⟩,
        ⟨9, "Publish Content", "Content goes live", "system_action"⟩,
        ⟨10, "Notify Subscribers", "Followers notified of new content", "notification"⟩ ]),
    ("workflow",
      [ ⟨1, "Task Creation", "New task or request is created", "trigger"⟩,
        ⟨2, "Initial Review", "First level review of the request", "review"⟩,
        ⟨3, "Completeness Check", "Verify all required info is present", "system_check"⟩,
        ⟨4, "Assign Reviewer", "Route to appropriate reviewer", "system_action"⟩,
        ⟨5, "Review Process", "Reviewer examines the request", "user_action"⟩,
        ⟨6, "Approval Decision", "Approve, reject, or request changes", "decision"⟩,
        ⟨7, "Handle Rejection", "Process rejection with feedback", "conditional"⟩,
        ⟨8, "Execute Approval", "Perform the approved action", "system_action"⟩,
        ⟨9, "Audit Log", "Record the complete workflow trail", "logging"⟩,
        ⟨10, "Notify Stakeholders", "Inform all parties of outcome", "notification"⟩ ]),
    ("data",
      [ ⟨1, "Select Source", "Choose data source for operation", "user_action"⟩,
        ⟨2, "Configure Mapping", "Define field mappings", "user_input"⟩,
        ⟨3, "Validate Configuration", "System checks configuration validity", "system_check"⟩,
        ⟨4, "Preview Data", "Show sample of data to be processed", "display"⟩,
        ⟨5, "Confirm Operation", "User confirms to proceed", "user_action"⟩,
        ⟨6, "Extract Data", "Read data from source", "data_operation"⟩,
        ⟨7, "Transform Data", "Apply transformations and mappings", "data_operation"⟩,
        ⟨8, "Validate Data", "Check data integrity and format", "system_check"⟩,
        ⟨9, "Load Data", "Write data to destination", "data_operation"⟩,
        ⟨10, "Generate Report", "Create operation summary report", "system_action"⟩ ]),
    ("notification",
      [ ⟨1, "Trigger Event", "Event occurs that requires notification", "trigger"⟩,
        ⟨2, "Fetch Recipients", "Query notification preferences", "database_query"⟩,
        ⟨3, "Filter Recipients", "Apply opt-out and preferences", "system_check"⟩,
        ⟨4, "Prepare Content", "Generate notification content", "system_action"⟩,
        ⟨5, "Channel Selection", "Determine delivery channel", "decision"⟩,
        ⟨6, "Queue Notification", "Add to notification queue", "system_action"⟩,
        ⟨7, "Send Notification", "Dispatch via selected channel", "integration"⟩,
        ⟨8, "Track Delivery", "Monitor delivery status", "logging"⟩,
        ⟨9, "Handle Failures", "Retry or escalate failed sends", "error_handling"⟩ ]),
    ("general",
      [ ⟨1, "Initialize Process", "Start the workflow process", "trigger"⟩,
        ⟨2, "Gather Input", "Collect required information", "user_input"⟩,
        ⟨3, "Validate Input", "Check input completeness and format", "system_check"⟩,
        ⟨4, "Process Request", "Execute main business logic", "system_action"⟩,
        ⟨5, "Decision Point", "Evaluate conditions for next step", "decision"⟩,
        ⟨6, "Execute Action", "Perform the required action", "system_action"⟩,
        ⟨7, "Store Results", "Save outcome to database", "database_write"⟩,
        ⟨8, "Generate Response", "Prepare response for user", "system_action"⟩,
        ⟨9, "Send Notifications", "Alert relevant parties", "notification"⟩,
        ⟨10, "Complete Process", "Finalize and close the workflow", "end"⟩ ]) ]

/-- The `general` fallback template (`templates.general`). -/
def generalTemplate : List Step :=
  ((templates.find? (fun p => decide (p.1 = "general"))).map Prod.snd).getD []

/-- `generateStepsForType(type, description)`: `templates[type] || templates.general`.
The description parameter is accepted but unused, as in the source. -/
def generateStepsForType (type description : String) : List Step :=
  ((templates.find? (fun p => decide (p.1 = type))).map Prod.snd).getD generalTemplate

/-! ## Summary generator (`generateSummary`, mockAI.js lines 190-204) -/

/-- The `summaries.general` fallback text. -/
def generalSummary : String :=
  "This workflow outlines a structured process to accomplish the described scenario. It includes input handling, processing logic, and appropriate notifications."

/-- The fixed per-category summaries table (`summaries` in the source). -/
def summaries : List (String × String) :=
  [ ("ecommerce", "This e-commerce workflow handles the complete purchase journey from product browsing to order confirmation. It includes cart management, payment processing, and inventory updates to ensure a smooth shopping experience."),
    ("auth", "This authentication workflow securely handles user login with input validation, credential verification, and session management. It includes security logging for audit purposes."),
    ("booking", "This booking workflow manages appointment scheduling from service selection to confirmation. It includes availability checking, slot selection, and calendar integration capabilities."),
    ("support", "This customer support workflow handles ticket creation and routing. It uses AI-powered categorization and priority assignment to ensure efficient issue resolution."),
    ("content", "This content management workflow covers the complete publishing lifecycle from draft creation to publication. It includes review processes and subscriber notifications."),
    ("workflow", "This approval workflow manages multi-level review processes with proper routing, decision handling, and audit logging for compliance."),
    ("data", "This data operation workflow handles ETL (Extract, Transform, Load) processes with validation, preview, and comprehensive reporting."),
    ("notification", "This notification workflow manages multi-channel message delivery with preference handling, delivery tracking, and failure recovery."),
    ("general", generalSummary) ]

/-- `generateSummary(type, description)`: `summaries[type] || summaries.general`. -/
def generateSummary (type : String) : String :=
  ((summaries.find? (fun p => decide (p.1 = type))).map Prod.snd).getD generalSummary

/-! ## Diagram generator (diagramGenerator.js) -/

/-- Node shape delimiters; the source's field names `open`/`close` are
Lean keywords, renamed to `opn`/`cls`. -/
structure Shape where
  opn : String
  cls : String
deriving DecidableEq

/-- The fixed step-type → shape table (`shapes` in `getNodeShape`). -/
def shapes : List (String × Shape) :=
  [ ("trigger", ⟨"([", "])"⟩),
    ("end", ⟨"([", "])"⟩),
    ("decision", ⟨"\x7b", "\x7d"⟩),
    ("user_action", ⟨"[", "]"⟩),
    ("user_input", ⟨"[/", "/]"⟩),
    ("system_action", ⟨"[[", "]]"⟩),
    ("system_check", ⟨"\x7b\x7b", "\x7d\x7d"⟩),
    ("database_query", ⟨"[(", ")]"⟩),
    ("database_write", ⟨"[(", ")]"⟩),
    ("notification", ⟨">", "]"⟩),
    ("navigation", ⟨"[", "]"⟩),
    ("display", ⟨"[", "]"⟩),
    ("logging", ⟨"[(", ")]"⟩),
    ("integration", ⟨"[[", "]]"⟩),
    ("review", ⟨"[", "]"⟩),
    ("workflow_action", ⟨"[[", "]]"⟩),
    ("conditional", ⟨"\x7b", "\x7d"⟩),
    ("ai_process", ⟨"[[", "]]"⟩),
    ("data_operation", ⟨"[[", "]]"⟩),
    ("error_handling", ⟨"\x7b", "\x7d"⟩) ]

/-- `getNodeShape(type)`: table lookup with rectangle default. -/
def getNodeShape (type : String) : Shape :=
  ((shapes.find? (fun p => decide (p.1 = type))).map Prod.snd).getD ⟨"[", "]"⟩

/-- `nodeId(id)` = `step${id}`. -/
def nodeId (id : Nat) : String := "step" ++ toString id

/-- The single-quote character (escaped replacement for a double quote). -/
def squoteC : Char := Char.ofNat 39

/-- The characters removed by `escapeLabel`: `[ ] \x7b \x7d ( )`. -/
def bracketChars : List Char := ['[', ']', Char.ofNat 123, Char.ofNat 125, '(', ')']

/-- Pass 1 of `escapeLabel`: `.replace(/"/g, "'")`. -/
def replaceQuotes (l : List Char) : List Char :=
  l.map (fun c => if c = '"' then squoteC else c)

/-- Pass 2 of `escapeLabel`: `.replace(/[[\]\x7b\x7d()]/g, '')`. -/
def stripBrackets (l : List Char) : List Char :=
  l.filter (fun c => decide (c ∉ bracketChars))

/-- Pass 3 of `escapeLabel`: `.replace(/>/g, '->')`. -/
def expandGt (l : List Char) : List Char :=
  l.flatMap (fun c => if c = '>' then ['-', '>'] else [c])

/-- Pass 4 of `escapeLabel`: `.replace(/</g, '<-')`. -/
def expandLt (l : List Char) : List Char :=
  l.flatMap (fun c => if c = '<' then ['<', '-'] else [c])

/-- `escapeLabel(text)`: the four sequential global replacements. -/
def escapeLabel (text : String) : String :=
  ⟨expandLt (expandGt (stripBrackets (replaceQuotes text.toList)))⟩

/-- The fixed style-definition header lines pushed before the nodes. -/
def styleDefLines : List String :=
  [ "  %% Style definitions",
    "  classDef trigger fill:#e1f5fe,stroke:#01579b",
    "  classDef decision fill:#fff3e0,stroke:#e65100",
    "  classDef action fill:#e8f5e9,stroke:#1b5e20",
    "  classDef notification fill:#fce4ec,stroke:#880e4f",
    "  classDef database fill:#f3e5f5,stroke:#4a148c",
    "  classDef system fill:#e3f2fd,stroke:#0d47a1",
    "" ]

/-- One node line: `  ${nodeId(step.id)}${shape.open}"${label}"${shape.close}`. -/
def nodeLine (step : Step) : String :=
  "  " ++ nodeId step.id ++ (getNodeShape step.type).opn ++ "\"" ++ escapeLabel step.name
    ++ "\"" ++ (getNodeShape step.type).cls

/-- The edge lines emitted by loop iteration `i` of the connections loop
(`for (let i = 0; i < workflow.length - 1; i++)`, with `current = workflow[i]`
and `next = workflow[i + 1]`). -/
def edgesAt (w : List Step) (i : Nat) : List String :=
  if (w.getD i dummyStep).type = "decision" ∨ (w.getD i dummyStep).type = "conditional" then
    ("  " ++ nodeId (w.getD i dummyStep).id ++ " -->|Yes| " ++ nodeId (w.getD (i + 1) dummyStep).id) ::
      (if i + 2 < w.length then
        ["  " ++ nodeId (w.getD i dummyStep).id ++ " -.->|No| " ++ nodeId (w.getD (i + 2) dummyStep).id]
      else [])
  else
    ["  " ++ nodeId (w.getD i dummyStep).id ++ " --> " ++ nodeId (w.getD (i + 1) dummyStep).id]

/-- All connection lines, in loop order. -/
def connectionLines (w : List Step) : List String :=
  (List.range (w.length - 1)).flatMap (edgesAt w)

/-- The style class chosen for a step (the `styleClass` if-chain). -/
def styleClassFor (type : String) : String :=
  if type = "trigger" ∨ type = "end" then "trigger"
  else if type = "decision" ∨ type = "conditional" then "decision"
  else if type = "notification" then "notification"
  else if strIncludes type.toList "database" then "database"
  else if strIncludes type.toList "system" then "system"
  else "action"

/-- One style-application line: `  class ${nodeId(step.id)} ${styleClass}`. -/
def styleLine (step : Step) : String :=
  "  class " ++ nodeId step.id ++ " " ++ styleClassFor step.type

/-- All lines of the Mermaid diagram, in emission order; the empty /
missing workflow short-circuits to the placeholder diagram. -/
def diagramLines (w : List Step) : List String :=
  if w.isEmpty then ["graph TD", "  empty[No workflow steps]"]
  else
    "graph TD" :: styleDefLines ++ ["  %% Nodes"] ++ w.map nodeLine
      ++ ["", "  %% Connections"] ++ connectionLines w
      ++ ["", "  %% Apply styles"] ++ w.map styleLine

/-- `generateMermaidDiagram(workflow)`: the lines joined with newlines. -/
def generateMermaidDiagram (w : List Step) : String :=
  "\n".intercalate (diagramLines w)

/-! ## Entity inferencer (schemaGenerator.js) -/

/-- The fixed ordered keyword-set → entity rules of `extractEntities`. -/
def entityRules : List (List String × String) :=
  [ (["user", "credential"], "User"),
    (["product", "item"], "Product"),
    (["order", "purchase"], "Order"),
    (["cart"], "Cart"),
    (["payment"], "Payment"),
    (["ticket", "issue"], "Ticket"),
    (["booking", "reservation", "appointment"], "Booking"),
    (["content", "post", "article"], "Content"),
    (["notification", "alert"], "Notification"),
    (["session", "token"], "Session"),
    (["task", "workflow"], "Task") ]

/-- `` `${step.name} ${step.description}`.toLowerCase() `` as a char list. -/
def stepText (s : Step) : List Char :=
  (s.name ++ " " ++ s.description).toList.map Char.toLower

/-- JS `Set.add`: append if absent (insertion-ordered, deduplicated). -/
def addEntity (s : List String) (e : String) : List String :=
  if e ∈ s then s else s ++ [e]

/-- Whether one keyword rule fires on a step's text. -/
def ruleFires (s : Step) (r : List String × String) : Bool :=
  r.1.any (fun kw => strIncludes (stepText s) kw)

/-- The entity additions performed for one step (the body of the
`workflow.forEach(step => …)` loop, one `if (text.includes(…))` per rule). -/
def processStep (acc : List String) (s : Step) : List String :=
  entityRules.foldl (fun acc r => if ruleFires s r then addEntity acc r.2 else acc) acc

/-- `extractEntities(workflow)`: the accumulated entity set (the
source's local `entities`, inlined), with the `Record` fallback when it
would be empty. -/
def extractEntities (workflow : List Step) : List String :=
  if (workflow.foldl processStep []).isEmpty then ["Record"]
  else workflow.foldl processStep []

/-- A relationship entry; the source's field names `from`/`to` are
renamed to `fromE`/`toE` (`from` is a Lean keyword). -/
structure Rel where
  fromE : String
  toE : String
  type : String
  description : String
deriving DecidableEq

/-- The fixed relationship table (`relationshipMap` in `generateDataModel`). -/
def relationshipMap : List (String × Rel) :=
  [ ("User-Order", ⟨"User", "Order", "one-to-many", "User places orders"⟩),
    ("User-Cart", ⟨"User", "Cart", "one-to-one", "User has a cart"⟩),
    ("User-Ticket", ⟨"User", "Ticket", "one-to-many", "User creates tickets"⟩),
    ("User-Booking", ⟨"User", "Booking", "one-to-many", "User makes bookings"⟩),
    ("User-Content", ⟨"User", "Content", "one-to-many", "User creates content"⟩),
    ("User-Session", ⟨"User", "Session", "one-to-many", "User has sessions"⟩),
    ("User-Notification", ⟨"User", "Notification", "one-to-many", "User receives notifications"⟩),
    ("Order-Payment", ⟨"Order", "Payment", "one-to-one", "Order has payment"⟩),
    ("Order-Product", ⟨"Order", "Product", "many-to-many", "Order contains products"⟩),
    ("Cart-Product", ⟨"Cart", "Product", "many-to-many", "Cart contains products"⟩) ]

/-- The per-pair probe: `relationshipMap[key1]`, else `relationshipMap[key2]`,
with `key1 = a + "-" + b` and `key2 = b + "-" + a`. -/
def lookupRel (a b : String) : Option Rel :=
  match relationshipMap.find? (fun p => decide (p.1 = a ++ "-" ++ b)) with
  | some p => some p.2
  | none => (relationshipMap.find? (fun p => decide (p.1 = b ++ "-" ++ a))).map Prod.snd

/-- The nested index loops `for i; for j = i+1 …` over `entityArray`,
written structurally: the head is paired with every later element in
order, then the loop continues on the tail. -/
def relationships : List String → List Rel
  | [] => []
  | a :: rest => rest.filterMap (fun b => lookupRel a b) ++ relationships rest

/-- The generated data model. `entities` holds the keys of the source's
`entities` object in insertion order; the per-entity schema bodies
(`generateEntitySchema`) are fixed static lookup data not examined by
any claim and are not modelled field-by-field. -/
structure DataModel where
  schemaId : String
  title : String
  description : String
  entities : List String
  relationships : List Rel
deriving DecidableEq

/-- `generateDataModel(workflow, description)`. -/
def generateDataModel (workflow : List Step) (description : String) : DataModel :=
  let entityArray := extractEntities workflow
  { schemaId := "http://json-schema.org/draft-07/schema#",
    title := "Scenario Data Model",
    description := "Data model generated for: " ++ String.mk (description.toList.take 100) ++ "...",
    entities := entityArray,
    relationships := relationships entityArray }

/-! ## Orchestrator (workflowService.js) and controller validation -/

/-- The value resolved by `mockAIGenerate`. The wall-clock timestamp
`new Date().toISOString()` is modelled by the explicit `now` parameter;
the random simulated delay has no observable effect on the value. -/
structure AIResponse where
  workflow : List Step
  summary : String
  detectedType : String
  generatedAt : String
  aiProvider : String
deriving DecidableEq

/-- `mockAIGenerate(description)` at wall-clock time `now`. -/
def mockAIGenerate (description : String) (now : String) : AIResponse :=
  let type := analyzeDescription description
  { workflow := generateStepsForType type description,
    summary := generateSummary type,
    detectedType := type,
    generatedAt := now,
    aiProvider := "mock" }

/-- The composite result returned by `generateWorkflow`. -/
structure ScenarioResult where
  workflow : List Step
  mermaid_diagram : String
  data_model : DataModel
  summary : String
deriving DecidableEq

/-- `generateWorkflow(description)` (workflowService.js lines 18-35) at
wall-clock time `now`. The AI response's time-varying `metadata` is not
part of the returned result. -/
def generateWorkflow (description : String) (now : String) : ScenarioResult :=
  let aiResponse := mockAIGenerate description now
  { workflow := aiResponse.workflow,
    mermaid_diagram := generateMermaidDiagram aiResponse.workflow,
    data_model := generateDataModel aiResponse.workflow description,
    summary := aiResponse.summary }

/-- The `description` field of the request body: absent, present but not
a string, or a string value. -/
inductive ReqDescription where
  | missing
  | nonString
  | strVal (s : String)
deriving DecidableEq

/-- The controller's observable outcome: a 400 validation failure with
`error` and `message` fields, or a 200 response with the generated data. -/
inductive ScenarioResponse where
  | badRequest (error message : String)
  | ok (result : ScenarioResult)
deriving DecidableEq

/-- JS `String.prototype.trim`: drop whitespace from both ends,
modelled on the char list. -/
def jsTrim (s : String) : String :=
  ⟨(((s.toList.dropWhile Char.isWhitespace).reverse.dropWhile Char.isWhitespace).reverse)⟩

/-- `generateScenario(req, res)` (scenario controller lines 16-51):
`!description` (which is also true of the empty string) or a non-string
value is rejected as invalid input; a trimmed length under 10 is
rejected as too short; otherwise the pipeline runs on the trimmed text. -/
def generateScenario (body : ReqDescription) (now : String) : ScenarioResponse :=
  match body with
  | .missing => .badRequest "Invalid input" "Please provide a valid scenario description"
  | .nonString => .badRequest "Invalid input" "Please provide a valid scenario description"
  | .strVal s =>
    if s = "" then
      .badRequest "Invalid input" "Please provide a valid scenario description"
    else if (jsTrim s).length < 10 then
      .badRequest "Description too short" "Please provide a more detailed scenario description (at least 10 characters)"
    else
      .ok (generateWorkflow (jsTrim s) now)

/-! ## Claim C1: the classifier -/

/-- Spec-level formulation of the classifier, written from the spec's
words: lower-case the description, return the **first** category of the
fixed ordered table one of whose keywords occurs as a substring, and
`general` when none matches. Compared against the source-derived
`analyzeDescription` in the C1 theorem. -/
def classifySpec (description : String) : String :=
  ((types.find? (fun p => matchesCat (description.toList.map Char.toLower) p.2)).map
    Prod.fst).getD "general"

lemma detectType_eq_find (l : List (String × List String)) (d : List Char) :
    detectType l d = ((l.find? (fun p => matchesCat d p.2)).map Prod.fst).getD "general" := by
  induction l with
  | nil => rfl
  | cons p rest ih =>
    obtain ⟨t, kws⟩ := p
    by_cases h : matchesCat d kws
    · simp [detectType, h, List.find?_cons_of_pos]
    · simpa [detectType, h, List.find?_cons_of_neg] using ih

/-- C1: `analyzeDescription` lower-cases the description and returns the
first category of the fixed ordered table with a keyword occurring as a
substring (the `classifySpec` refinement); in particular a description
matching an ecommerce keyword (the earliest category) yields
`"ecommerce"`, and a description matching no category's keywords yields
`"general"`. -/
theorem analyzeDescription_spec (d : String) :
    analyzeDescription d = classifySpec d ∧
    (matchesCat (d.toList.map Char.toLower)
        ["shop", "cart", "buy", "purchase", "order", "payment", "checkout", "product"] = true →
      analyzeDescription d = "ecommerce") ∧
    ((∀ p ∈ types, matchesCat (d.toList.map Char.toLower) p.2 = false) →
      analyzeDescription d = "general") := by
  refine ⟨detectType_eq_find types _, fun h => ?_, fun h => ?_⟩
  · have hfind : List.find? (fun p => matchesCat (d.toList.map Char.toLower) p.2) types =
        some ("ecommerce", ["shop", "cart", "buy", "purchase", "order", "payment", "checkout", "product"]) := by
      rw [types]
      exact List.find?_cons_of_pos _ h
    rw [analyzeDescription, detectType_eq_find, hfind]
    rfl
  · rw [analyzeDescription, detectType_eq_find]
    rw [List.find?_eq_none.mpr (fun p hp => by rw [h p hp]; exact Bool.false_ne_true)]
    rfl

/-- Witness for C1 at concrete inputs: a description containing the
ecommerce keyword `buy` (case-insensitively), and one containing no
category keyword. -/
theorem analyzeDescription_spec_witness :
    analyzeDescription "I want to BUY a gadget" = "ecommerce" ∧
    analyzeDescription "hello zzz" = "general" :=
  ⟨(analyzeDescription_spec "I want to BUY a gadget").2.1 (by decide),
   (analyzeDescription_spec "hello zzz").2.2 (by decide)⟩

/-! ## Claim C2: the step templates -/

lemma generateStepsForType_mem (t d : String) :
    generateStepsForType t d ∈ templates.map Prod.snd := by
  unfold generateStepsForType
  cases h : templates.find? (fun p => decide (p.1 = t)) with
  | none =>
    exact (by decide : generalTemplate ∈ templates.map Prod.snd)
  | some p =>
    exact List.mem_map_of_mem _ (List.mem_of_find?_eq_some h)

/-- C2: for every category string (known or unknown, the latter falling
back to the `general` template), `generateStepsForType` returns a
non-empty sequence of 7 to 10 steps whose ids are exactly the contiguous
range 1, 2, …, length (hence unique). -/
theorem generateStepsForType_spec (t d : String) :
    generateStepsForType t d ≠ [] ∧
    7 ≤ (generateStepsForType t d).length ∧
    (generateStepsForType t d).length ≤ 10 ∧
    (generateStepsForType t d).map Step.id = List.range' 1 (generateStepsForType t d).length ∧
    ((generateStepsForType t d).map Step.id).Nodup := by
  have hall : ∀ l ∈ templates.map Prod.snd,
      l ≠ [] ∧ 7 ≤ l.length ∧ l.length ≤ 10 ∧
        l.map Step.id = List.range' 1 l.length ∧ (l.map Step.id).Nodup := by decide
  exact hall _ (generateStepsForType_mem t d)

/-! ## Claims C3 and C10: entity extraction -/

lemma mem_addEntity_self (s : List String) (e : String) : e ∈ addEntity s e := by
  unfold addEntity
  split
  · assumption
  · simp

lemma mem_addEntity_of_mem {x : String} {s : List String} (h : x ∈ s) (e : String) :
    x ∈ addEntity s e := by
  unfold addEntity
  split
  · exact h
  · exact List.mem_append_left _ h

lemma foldl_preserve {α β : Type} {P : α → Prop} {g : α → β → α}
    (hg : ∀ acc b, P acc → P (g acc b)) :
    ∀ (l : List β) (acc : α), P acc → P (l.foldl g acc) := by
  intro l
  induction l with
  | nil => exact fun acc h => h
  | cons b l ih => exact fun acc h => ih _ (hg _ _ h)

lemma entityStep_mem {x : String} (s : Step) (acc : List String) (r : List String × String)
    (h : x ∈ acc) : x ∈ (if ruleFires s r then addEntity acc r.2 else acc) := by
  split
  · exact mem_addEntity_of_mem h _
  · exact h

lemma mem_processStep_of_mem {x : String} {acc : List String} (h : x ∈ acc) (s : Step) :
    x ∈ processStep acc s :=
  foldl_preserve (entityStep_mem s) entityRules acc h

lemma fire_mem_foldl_rules {s : Step} {r : List String × String} :
    ∀ (rules : List (List String × String)) (acc : List String), r ∈ rules →
      ruleFires s r = true →
      r.2 ∈ rules.foldl (fun acc r => if ruleFires s r then addEntity acc r.2 else acc) acc := by
  intro rules
  induction rules with
  | nil => intro acc h; exact absurd h (List.not_mem_nil _)
  | cons r0 rest ih =>
    intro acc hmem hf
    rcases List.mem_cons.mp hmem with h0 | hrest
    · subst h0
      have hstep : r.2 ∈ (if ruleFires s r then addEntity acc r.2 else acc) := by
        rw [if_pos hf]
        exact mem_addEntity_self acc r.2
      exact foldl_preserve (entityStep_mem s) rest _ hstep
    · exact ih _ hrest hf

lemma fire_mem_processStep {s : Step} {r : List String × String} (hr : r ∈ entityRules)
    (hf : ruleFires s r = true) (acc : List String) : r.2 ∈ processStep acc s :=
  fire_mem_foldl_rules entityRules acc hr hf

lemma mem_foldl_steps_of_mem {x : String} :
    ∀ (w : List Step) (acc : List String), x ∈ acc → x ∈ w.foldl processStep acc := by
  intro w
  induction w with
  | nil => exact fun acc h => h
  | cons t w' ih =>
    intro acc h
    rw [List.foldl_cons]
    exact ih _ (mem_processStep_of_mem h t)

lemma fire_mem_foldl_steps {r : List String × String} {s : Step} :
    ∀ (w : List Step) (acc : List String), s ∈ w → r ∈ entityRules → ruleFires s r = true →
      r.2 ∈ w.foldl processStep acc := by
  intro w
  induction w with
  | nil => intro acc h; exact absurd h (List.not_mem_nil _)
  | cons t w' ih =>
    intro acc hmem hr hf
    rw [List.foldl_cons]
    rcases List.mem_cons.mp hmem with h0 | hrest
    · subst h0
      exact mem_foldl_steps_of_mem w' _ (fire_mem_processStep hr hf acc)
    · exact ih _ hrest hr hf

lemma mem_extract_of_mem_foldl {x : String} {w : List Step}
    (h : x ∈ w.foldl processStep []) : x ∈ extractEntities w := by
  unfold extractEntities
  split
  · rename_i he
    rw [List.isEmpty_iff.mp he] at h
    exact absurd h (List.not_mem_nil _)
  · exact h

lemma extractEntities_ne_nil (w : List Step) : extractEntities w ≠ [] := by
  unfold extractEntities
  split
  · simp
  · rename_i he
    simpa [List.isEmpty_iff] using he

/-- C3 counterexample: on a step whose concatenated name+description text
contains "password" (and none of the actual `User` keywords "user" /
"credential"), `extractEntities` does **not** include `User` — it falls
through to `["Record"]`. -/
theorem extractEntities_password_cex :
    strIncludes (stepText ⟨1, "Reset", "password flow", "user_input"⟩) "password" = true ∧
    "User" ∉ extractEntities [⟨1, "Reset", "password flow", "user_input"⟩] ∧
    extractEntities [⟨1, "Reset", "password flow", "user_input"⟩] = ["Record"] := by
  decide

/-- C3 (amended): `extractEntities` on steps whose concatenated
name+description text contains "user" (a `User`-rule keyword; the
claim's "password" is not one) includes `User`; on text containing
"product" it includes `Product`; and the returned set is never empty
(the fallback entity `Record` is inserted when no rule fires). -/
theorem extractEntities_spec (w : List Step) :
    ((∃ s ∈ w, strIncludes (stepText s) "user" = true) → "User" ∈ extractEntities w) ∧
    ((∃ s ∈ w, strIncludes (stepText s) "product" = true) → "Product" ∈ extractEntities w) ∧
    extractEntities w ≠ [] := by
  refine ⟨fun ⟨s, hs, h⟩ => ?_, fun ⟨s, hs, h⟩ => ?_, extractEntities_ne_nil w⟩
  · have hr : (["user", "credential"], "User") ∈ entityRules := by decide
    have hf : ruleFires s (["user", "credential"], "User") = true := by
      simp [ruleFires, h]
    exact mem_extract_of_mem_foldl (fire_mem_foldl_steps w [] hs hr hf)
  · have hr : (["product", "item"], "Product") ∈ entityRules := by decide
    have hf : ruleFires s (["product", "item"], "Product") = true := by
      simp [ruleFires, h]
    exact mem_extract_of_mem_foldl (fire_mem_foldl_steps w [] hs hr hf)

/-- Witness for C3 (amended) at a concrete input: a one-step workflow
whose text contains both "user" and "product". -/
theorem extractEntities_spec_witness :
    "User" ∈ extractEntities [⟨1, "User", "buys a product", "user_action"⟩] ∧
    "Product" ∈ extractEntities [⟨1, "User", "buys a product", "user_action"⟩] ∧
    extractEntities [⟨1, "User", "buys a product", "user_action"⟩] ≠ [] :=
  ⟨(extractEntities_spec _).1 ⟨_, List.mem_singleton.mpr rfl, by decide⟩,
   (extractEntities_spec _).2.1 ⟨_, List.mem_singleton.mpr rfl, by decide⟩,
   (extractEntities_spec _).2.2⟩

/- Inversion lemmas: everything the fold accumulates is a rule's entity. -/

lemma entityStep_mem_inv {x : String} {s : Step} {acc : List String} {r : List String × String}
    (h : x ∈ (if ruleFires s r then addEntity acc r.2 else acc)) : x ∈ acc ∨ x = r.2 := by
  revert h
  split
  · intro h
    unfold addEntity at h
    revert h
    split
    · exact Or.inl
    · intro h
      rcases List.mem_append.mp h with h | h
      · exact Or.inl h
      · exact Or.inr (List.mem_singleton.mp h)
  · exact Or.inl

lemma mem_foldl_rules_inv {x : String} {s : Step} :
    ∀ (rules : List (List String × String)) (acc : List String),
      x ∈ rules.foldl (fun acc r => if ruleFires s r then addEntity acc r.2 else acc) acc →
      x ∈ acc ∨ ∃ r ∈ rules, x = r.2 := by
  intro rules
  induction rules with
  | nil => exact fun acc h => Or.inl h
  | cons r0 rest ih =>
    intro acc h
    rcases ih _ h with h' | ⟨r, hr, he⟩
    · rcases entityStep_mem_inv h' with h'' | h''
      · exact Or.inl h''
      · exact Or.inr ⟨r0, List.mem_cons_self _ _, h''⟩
    · exact Or.inr ⟨r, List.mem_cons_of_mem _ hr, he⟩

lemma mem_foldl_steps_inv {x : String} :
    ∀ (w : List Step) (acc : List String), x ∈ w.foldl processStep acc →
      x ∈ acc ∨ ∃ r ∈ entityRules, x = r.2 := by
  intro w
  induction w with
  | nil => exact fun acc h => Or.inl h
  | cons s w' ih =>
    intro acc h
    rcases ih _ h with h' | hr
    · exact mem_foldl_rules_inv entityRules acc h'
    · exact Or.inr hr

lemma record_not_mem_foldl (w : List Step) : "Record" ∉ w.foldl processStep [] := by
  intro h
  rcases mem_foldl_steps_inv w [] h with h' | ⟨r, hr, he⟩
  · exact absurd h' (List.not_mem_nil _)
  · have : ∀ r ∈ entityRules, r.2 ≠ "Record" := by decide
    exact this r hr he.symm

lemma foldl_congr_id {α β : Type} {g : α → β → α} :
    ∀ (l : List β) (acc : α), (∀ b ∈ l, ∀ a, g a b = a) → l.foldl g acc = acc := by
  intro l
  induction l with
  | nil => intro acc _; rfl
  | cons b l ih =>
    intro acc h
    rw [List.foldl_cons, h b (List.mem_cons_self _ _), ih _ (fun b hb => h b (List.mem_cons_of_mem _ hb))]

lemma processStep_no_fire {s : Step} (h : ∀ r ∈ entityRules, ruleFires s r = false)
    (acc : List String) : processStep acc s = acc := by
  unfold processStep
  exact foldl_congr_id entityRules acc (fun r hr a => by rw [h r hr]; simp)

lemma foldl_steps_no_fire :
    ∀ (w : List Step), (∀ s ∈ w, ∀ r ∈ entityRules, ruleFires s r = false) →
      w.foldl processStep [] = [] := by
  intro w
  induction w with
  | nil => intro _; rfl
  | cons s w' ih =>
    intro h
    rw [List.foldl_cons, processStep_no_fire (h s (List.mem_cons_self _ _)),
      ih (fun s hs => h s (List.mem_cons_of_mem _ hs))]

/-- C10: `Record` is in the inferred entity set iff no keyword rule
fired on any step, and whenever `Record` is present the set is exactly
`["Record"]` — `Record` never co-occurs with another entity. -/
theorem extractEntities_record_iff (w : List Step) :
    ("Record" ∈ extractEntities w ↔ ∀ s ∈ w, ∀ r ∈ entityRules, ruleFires s r = false) ∧
    ("Record" ∈ extractEntities w → extractEntities w = ["Record"]) := by
  have hforward : "Record" ∈ extractEntities w → (w.foldl processStep []).isEmpty = true := by
    intro h
    by_contra he
    have : extractEntities w = w.foldl processStep [] := by
      unfold extractEntities
      exact if_neg he
    rw [this] at h
    exact record_not_mem_foldl w h
  constructor
  · constructor
    · intro h s hs r hr
      by_contra hf
      have hf' : ruleFires s r = true := by
        cases hfr : ruleFires s r
        · exact absurd hfr hf
        · rfl
      have hmem : r.2 ∈ w.foldl processStep [] := fire_mem_foldl_steps w [] hs hr hf'
      rw [List.isEmpty_iff.mp (hforward h)] at hmem
      exact absurd hmem (List.not_mem_nil _)
    · intro h
      have he : (w.foldl processStep []).isEmpty = true := by
        rw [foldl_steps_no_fire w h]
        rfl
      unfold extractEntities
      rw [if_pos he]
      simp
  · intro h
    unfold extractEntities
    rw [if_pos (hforward h)]

/-- Witness for C10 at the empty workflow: no rule fires, `Record` is
present, and the set is exactly `["Record"]`. -/
theorem extractEntities_record_iff_witness :
    "Record" ∈ extractEntities [] ∧ extractEntities [] = ["Record"] :=
  ⟨(extractEntities_record_iff []).1.mpr (by simp),
   (extractEntities_record_iff []).2 ((extractEntities_record_iff []).1.mpr (by simp))⟩

/-! ## Claim C5: `escapeLabel` -/

lemma flatMap_eq_self {f : Char → List Char} :
    ∀ l : List Char, (∀ c ∈ l, f c = [c]) → l.flatMap f = l := by
  intro l
  induction l with
  | nil => intro _; rfl
  | cons c l ih =>
    intro h
    rw [List.flatMap_cons, h c (List.mem_cons_self _ _),
      ih (fun c hc => h c (List.mem_cons_of_mem _ hc)), List.singleton_append]

lemma map_eq_self {f : Char → Char} :
    ∀ l : List Char, (∀ c ∈ l, f c = c) → l.map f = l := by
  intro l
  induction l with
  | nil => intro _; rfl
  | cons c l ih =>
    intro h
    rw [List.map_cons, h c (List.mem_cons_self _ _),
      ih (fun c hc => h c (List.mem_cons_of_mem _ hc))]

lemma expandGt_eq_self {l : List Char} (h : '>' ∉ l) : expandGt l = l :=
  flatMap_eq_self l (fun c hc => if_neg (fun hc' : c = '>' => h (hc' ▸ hc)))

lemma expandLt_eq_self {l : List Char} (h : '<' ∉ l) : expandLt l = l :=
  flatMap_eq_self l (fun c hc => if_neg (fun hc' : c = '<' => h (hc' ▸ hc)))

lemma replaceQuotes_eq_self {l : List Char} (h : '"' ∉ l) : replaceQuotes l = l :=
  map_eq_self l (fun c hc => if_neg (fun hc' : c = '"' => h (hc' ▸ hc)))

lemma stripBrackets_eq_self {l : List Char} (h : ∀ c ∈ l, c ∉ bracketChars) :
    stripBrackets l = l :=
  List.filter_eq_self.mpr (fun c hc => decide_eq_true (h c hc))

lemma mem_stripBrackets {c : Char} {l : List Char} (h : c ∈ stripBrackets l) : c ∈ l := by
  unfold stripBrackets at h
  exact List.mem_of_mem_filter h

lemma not_bracket_of_mem_stripBrackets {c : Char} {l : List Char}
    (h : c ∈ stripBrackets l) : c ∉ bracketChars := by
  unfold stripBrackets at h
  have hp := List.of_mem_filter h
  exact of_decide_eq_true hp

lemma mem_replaceQuotes {c : Char} {l : List Char} (h : c ∈ replaceQuotes l) :
    c ∈ l ∨ c = squoteC := by
  rcases List.mem_map.mp h with ⟨a, ha, he⟩
  by_cases h2 : a = '"'
  · rw [if_pos h2] at he
    exact Or.inr he.symm
  · rw [if_neg h2] at he
    exact Or.inl (he ▸ ha)

lemma quote_not_mem_replaceQuotes {l : List Char} : '"' ∉ replaceQuotes l := by
  intro h
  rcases List.mem_map.mp h with ⟨a, _, he⟩
  by_cases h2 : a = '"'
  · rw [if_pos h2] at he
    exact absurd he (by decide)
  · rw [if_neg h2] at he
    exact h2 he

lemma escapeLabel_fixedpoint {l : List Char} (hq : '"' ∉ l)
    (hbr : ∀ c ∈ l, c ∉ bracketChars) (hgt : '>' ∉ l) (hlt : '<' ∉ l) :
    escapeLabel ⟨l⟩ = ⟨l⟩ := by
  unfold escapeLabel
  have htl : String.toList ⟨l⟩ = l := rfl
  rw [htl, replaceQuotes_eq_self hq, stripBrackets_eq_self hbr,
    expandGt_eq_self hgt, expandLt_eq_self hlt]

/-- C5 counterexample: escaping is **not** idempotent on every string —
the `>` → `->` pass re-introduces a `>` that a second application expands
again, so `escapeLabel(escapeLabel("a>b"))` differs from
`escapeLabel("a>b")`. -/
theorem escapeLabel_not_idempotent_cex :
    escapeLabel (escapeLabel "a>b") ≠ escapeLabel "a>b" ∧
    escapeLabel "a>b" = "a->b" ∧
    escapeLabel (escapeLabel "a>b") = "a-->b" := by
  decide

/-- C5 (amended): the two concrete equations hold, and escaping is
idempotent on every input containing no `>` and no `<` character (the
`>` → `->` and `<` → `<-` passes re-introduce the characters they
replace, which is the only source of non-idempotence). -/
theorem escapeLabel_spec :
    escapeLabel "test \"quoted\"" = "test " ++ String.mk [squoteC] ++ "quoted" ++ String.mk [squoteC] ∧
    escapeLabel "test [brackets]" = "test brackets" ∧
    ∀ s : String, '>' ∉ s.toList → '<' ∉ s.toList →
      escapeLabel (escapeLabel s) = escapeLabel s := by
  refine ⟨by decide, by decide, fun s hgt hlt => ?_⟩
  have h2gt : '>' ∉ stripBrackets (replaceQuotes s.toList) := by
    intro h
    rcases mem_replaceQuotes (mem_stripBrackets h) with h' | h'
    · exact hgt h'
    · exact absurd h' (by decide)
  have h2lt : '<' ∉ stripBrackets (replaceQuotes s.toList) := by
    intro h
    rcases mem_replaceQuotes (mem_stripBrackets h) with h' | h'
    · exact hlt h'
    · exact absurd h' (by decide)
  have hout : escapeLabel s = ⟨stripBrackets (replaceQuotes s.toList)⟩ := by
    unfold escapeLabel
    rw [expandGt_eq_self h2gt, expandLt_eq_self h2lt]
  rw [hout]
  exact escapeLabel_fixedpoint
    (fun h => quote_not_mem_replaceQuotes (mem_stripBrackets h))
    (fun c hc => not_bracket_of_mem_stripBrackets hc) h2gt h2lt

/-- Witness for C5 (amended) at a concrete input without `<` or `>`. -/
theorem escapeLabel_spec_witness :
    escapeLabel (escapeLabel "abc [1] \"x\"") = escapeLabel "abc [1] \"x\"" :=
  escapeLabel_spec.2.2 "abc [1] \"x\"" (by decide) (by decide)

/-! ## Claims C4 and C8: the Mermaid diagram -/

lemma mem_connection_mem_diagram {w : List Step} {x : String} (hw : w ≠ [])
    (h : x ∈ connectionLines w) : x ∈ diagramLines w := by
  unfold diagramLines
  rw [if_neg (by simpa [List.isEmpty_iff] using hw)]
  simp [h]

/-- C4: for every index `i` with a successor, a step of type `decision`
or `conditional` emits a "Yes"-labeled edge to node `i+1` and — when
`i+2` is in range — a dashed "No"-labeled edge to node `i+2` among the
diagram's lines; every other non-final step emits exactly one default
directed edge to its immediate successor. -/
theorem generateMermaidDiagram_edges (w : List Step) (i : Nat) (h : i + 1 < w.length) :
    (((w.getD i dummyStep).type = "decision" ∨ (w.getD i dummyStep).type = "conditional") →
      ("  " ++ nodeId (w.getD i dummyStep).id ++ " -->|Yes| " ++ nodeId (w.getD (i + 1) dummyStep).id)
          ∈ diagramLines w ∧
      (i + 2 < w.length →
        ("  " ++ nodeId (w.getD i dummyStep).id ++ " -.->|No| " ++ nodeId (w.getD (i + 2) dummyStep).id)
            ∈ diagramLines w)) ∧
    (¬ ((w.getD i dummyStep).type = "decision" ∨ (w.getD i dummyStep).type = "conditional") →
      edgesAt w i =
          ["  " ++ nodeId (w.getD i dummyStep).id ++ " --> " ++ nodeId (w.getD (i + 1) dummyStep).id] ∧
      ("  " ++ nodeId (w.getD i dummyStep).id ++ " --> " ++ nodeId (w.getD (i + 1) dummyStep).id)
          ∈ diagramLines w) := by
  have hw : w ≠ [] := by
    intro hc
    rw [hc] at h
    simp at h
  have hi : i ∈ List.range (w.length - 1) := List.mem_range.mpr (by omega)
  constructor
  · intro hd
    constructor
    · apply mem_connection_mem_diagram hw
      unfold connectionLines
      refine List.mem_flatMap.mpr ⟨i, hi, ?_⟩
      unfold edgesAt
      rw [if_pos hd]
      exact List.mem_cons_self _ _
    · intro h2
      apply mem_connection_mem_diagram hw
      unfold connectionLines
      refine List.mem_flatMap.mpr ⟨i, hi, ?_⟩
      unfold edgesAt
      rw [if_pos hd, if_pos h2]
      exact List.mem_cons_of_mem _ (List.mem_singleton.mpr rfl)
  · intro hd
    have he : edgesAt w i =
        ["  " ++ nodeId (w.getD i dummyStep).id ++ " --> " ++ nodeId (w.getD (i + 1) dummyStep).id] := by
      unfold edgesAt
      rw [if_neg hd]
    refine ⟨he, mem_connection_mem_diagram hw ?_⟩
    unfold connectionLines
    refine List.mem_flatMap.mpr ⟨i, hi, ?_⟩
    rw [he]
    exact List.mem_singleton.mpr rfl

/-- Witness for C4 at a concrete three-step workflow whose first step is
a decision: the "Yes" edge, the dashed "No" skip edge, and the default
edge of the second (non-decision) step are all among the diagram lines. -/
theorem generateMermaidDiagram_edges_witness :
    "  step1 -->|Yes| step2"
        ∈ diagramLines [⟨1, "a", "b", "decision"⟩, ⟨2, "c", "d", "user_action"⟩, ⟨3, "e", "f", "end"⟩] ∧
    "  step1 -.->|No| step3"
        ∈ diagramLines [⟨1, "a", "b", "decision"⟩, ⟨2, "c", "d", "user_action"⟩, ⟨3, "e", "f", "end"⟩] ∧
    "  step2 --> step3"
        ∈ diagramLines [⟨1, "a", "b", "decision"⟩, ⟨2, "c", "d", "user_action"⟩, ⟨3, "e", "f", "end"⟩] := by
  have h0 := (generateMermaidDiagram_edges
    [⟨1, "a", "b", "decision"⟩, ⟨2, "c", "d", "user_action"⟩, ⟨3, "e", "f", "end"⟩] 0 (by decide)).1
    (Or.inl rfl)
  have h1 := (generateMermaidDiagram_edges
    [⟨1, "a", "b", "decision"⟩, ⟨2, "c", "d", "user_action"⟩, ⟨3, "e", "f", "end"⟩] 1 (by decide)).2
    (by decide)
  exact ⟨h0.1, h0.2 (by decide), h1.2⟩

/-- C8: on the empty step sequence the diagram generator does not fail:
it returns exactly the placeholder diagram, whose text contains the
"No workflow steps" placeholder marker and no edge arrow (`-->` or
`-.->`). -/
theorem generateMermaidDiagram_empty :
    generateMermaidDiagram [] = "graph TD\n  empty[No workflow steps]" ∧
    strIncludes (generateMermaidDiagram []).toList "No workflow steps" = true ∧
    strIncludes (generateMermaidDiagram []).toList "-->" = false ∧
    strIncludes (generateMermaidDiagram []).toList "-.->" = false := by
  decide

/-! ## Claim C7: determinism of the pipeline -/

/-- C7: the pipeline is deterministic — two runs of `generateWorkflow`
on the same description, at different wall-clock times, yield identical
workflow, diagram string, data model and summary (the only time-varying
value, the AI response's `generatedAt` metadata, is not part of the
result). -/
theorem generateWorkflow_deterministic (d t1 t2 : String) :
    generateWorkflow d t1 = generateWorkflow d t2 := rfl

/-! ## Claim C9: controller input validation -/

/-- C9: a request whose description is missing, not a string, or shorter
than 10 characters after trimming is rejected with a validation failure
carrying a non-empty human-readable message, and no generation result is
produced (the pipeline is never invoked). -/
theorem generateScenario_rejects (body : ReqDescription) (now : String)
    (h : body = ReqDescription.missing ∨ body = ReqDescription.nonString ∨
      ∃ s, body = ReqDescription.strVal s ∧ (jsTrim s).length < 10) :
    ∃ e m, generateScenario body now = ScenarioResponse.badRequest e m ∧ m ≠ "" ∧
      ∀ r, generateScenario body now ≠ ScenarioResponse.ok r := by
  have heq : ∃ e m, generateScenario body now = ScenarioResponse.badRequest e m ∧ m ≠ "" := by
    rcases h with h | h | ⟨s, h, hlen⟩
    · exact ⟨"Invalid input", "Please provide a valid scenario description",
        by rw [h]; rfl, by decide⟩
    · exact ⟨"Invalid input", "Please provide a valid scenario description",
        by rw [h]; rfl, by decide⟩
    · subst h
      by_cases hs : s = ""
      · refine ⟨"Invalid input", "Please provide a valid scenario description", ?_, by decide⟩
        simp [generateScenario, hs]
      · refine ⟨"Description too short",
          "Please provide a more detailed scenario description (at least 10 characters)", ?_, by decide⟩
        simp [generateScenario, hs, hlen]
  obtain ⟨e, m, heq, hm⟩ := heq
  exact ⟨e, m, heq, hm, fun r hc => by
    rw [heq] at hc
    exact ScenarioResponse.noConfusion hc⟩

/-- Witness for C9 at the 5-character input "short". -/
theorem generateScenario_rejects_witness :
    ∃ e m, generateScenario (ReqDescription.strVal "short") "now" =
        ScenarioResponse.badRequest e m ∧ m ≠ "" ∧
      ∀ r, generateScenario (ReqDescription.strVal "short") "now" ≠ ScenarioResponse.ok r :=
  generateScenario_rejects _ _ (Or.inr (Or.inr ⟨"short", rfl, by decide⟩))

/-! ## Claim C6: data-model relationships -/

/-- The closed entity-name enumeration: the eleven rule entities plus
the `Record` fallback (every value `extractEntities` can emit). -/
def validEntityNames : List String :=
  ["User", "Product", "Order", "Cart", "Payment", "Ticket", "Booking", "Content",
   "Notification", "Session", "Task", "Record"]

lemma extractEntities_valid (w : List Step) :
    ∀ x ∈ extractEntities w, x ∈ validEntityNames := by
  unfold extractEntities
  split
  · intro x hx
    rw [List.mem_singleton.mp hx]
    decide
  · intro x hx
    rcases mem_foldl_steps_inv w [] hx with h | ⟨r, hr, he⟩
    · exact absurd h (List.not_mem_nil _)
    · have hall : ∀ r ∈ entityRules, r.2 ∈ validEntityNames := by decide
      exact he ▸ hall r hr

lemma addEntity_nodup {s : List String} {e : String} (h : s.Nodup) : (addEntity s e).Nodup := by
  unfold addEntity
  split
  · exact h
  · rename_i he
    rw [List.nodup_append]
    exact ⟨h, List.nodup_singleton e, fun a ha hae => he (List.mem_singleton.mp hae ▸ ha)⟩

lemma foldl_rules_nodup {s : Step} :
    ∀ (rules : List (List String × String)) (acc : List String), acc.Nodup →
      (rules.foldl (fun acc r => if ruleFires s r then addEntity acc r.2 else acc) acc).Nodup := by
  intro rules
  induction rules with
  | nil => exact fun acc h => h
  | cons r rest ih =>
    intro acc h
    rw [List.foldl_cons]
    apply ih
    split
    · exact addEntity_nodup h
    · exact h

lemma processStep_nodup {acc : List String} (h : acc.Nodup) (s : Step) :
    (processStep acc s).Nodup :=
  foldl_rules_nodup entityRules acc h

lemma foldl_steps_nodup :
    ∀ (w : List Step) (acc : List String), acc.Nodup → (w.foldl processStep acc).Nodup := by
  intro w
  induction w with
  | nil => exact fun acc h => h
  | cons s w' ih =>
    intro acc h
    rw [List.foldl_cons]
    exact ih _ (processStep_nodup h s)

lemma extractEntities_nodup (w : List Step) : (extractEntities w).Nodup := by
  unfold extractEntities
  split
  · exact List.nodup_singleton _
  · exact foldl_steps_nodup w [] List.nodup_nil

/-- Soundness of the per-pair table probe on the closed entity-name
enumeration: any returned relationship is a table entry whose endpoints
are exactly the probed pair (in one of the two orders). -/
lemma lookupRel_sound :
    ∀ a ∈ validEntityNames, ∀ b ∈ validEntityNames, ∀ r ∈ (lookupRel a b).toList,
      r ∈ relationshipMap.map Prod.snd ∧
        ((r.fromE = a ∧ r.toE = b) ∨ (r.fromE = b ∧ r.toE = a)) := by
  decide

/-- The unordered endpoint pair of a relationship. -/
def canonPair (r : Rel) : Finset String := {r.fromE, r.toE}

/-- The unordered pair of two entity names. -/
def pairKey (a b : String) : Finset String := {a, b}

lemma mem_pairKey_iff {x a b : String} : x ∈ pairKey a b ↔ x = a ∨ x = b := by
  simp [pairKey]

lemma pairKey_right_inj {a b b' : String} (hb : b ≠ a) (hb' : b' ≠ a)
    (h : pairKey a b = pairKey a b') : b = b' := by
  have hm : b ∈ pairKey a b' := by
    rw [← h]
    exact mem_pairKey_iff.mpr (Or.inr rfl)
  rcases mem_pairKey_iff.mp hm with h' | h'
  · exact absurd h' hb
  · exact h'

lemma lookupRel_canon {a b : String} {r : Rel} (ha : a ∈ validEntityNames)
    (hb : b ∈ validEntityNames) (h : lookupRel a b = some r) :
    canonPair r = pairKey a b ∧ r ∈ relationshipMap.map Prod.snd := by
  have hs := lookupRel_sound a ha b hb r (by rw [h]; simp)
  refine ⟨?_, hs.1⟩
  rcases hs.2 with ⟨h1, h2⟩ | ⟨h1, h2⟩
  · simp only [canonPair, pairKey, h1, h2]
  · simp only [canonPair, pairKey, h1, h2]
    exact Finset.pair_comm b a

lemma mem_relationships :
    ∀ (ea : List String) (r : Rel), r ∈ relationships ea →
      ∃ a b, a ∈ ea ∧ b ∈ ea ∧ lookupRel a b = some r := by
  intro ea
  induction ea with
  | nil => intro r h; exact absurd h (List.not_mem_nil _)
  | cons a rest ih =>
    intro r h
    simp only [relationships] at h
    rcases List.mem_append.mp h with h | h
    · rcases List.mem_filterMap.mp h with ⟨b, hb, he⟩
      exact ⟨a, b, List.mem_cons_self _ _, List.mem_cons_of_mem _ hb, he⟩
    · obtain ⟨a', b', ha', hb', he⟩ := ih r h
      exact ⟨a', b', List.mem_cons_of_mem _ ha', List.mem_cons_of_mem _ hb', he⟩

lemma head_filterMap_canon_nodup {a : String} :
    ∀ (rest : List String), a ∉ rest → rest.Nodup → a ∈ validEntityNames →
      (∀ x ∈ rest, x ∈ validEntityNames) →
      ((rest.filterMap (fun b => lookupRel a b)).map canonPair).Nodup := by
  intro rest
  induction rest with
  | nil => intro _ _ _ _; simp
  | cons b rest' ih =>
    intro hna hnd hav hv
    have hna' : a ∉ rest' := fun h => hna (List.mem_cons_of_mem _ h)
    have hnab : a ≠ b := fun h => hna (h ▸ List.mem_cons_self _ _)
    obtain ⟨hbr, hnd'⟩ := List.nodup_cons.mp hnd
    have hv' : ∀ x ∈ rest', x ∈ validEntityNames := fun x hx => hv x (List.mem_cons_of_mem _ hx)
    rw [List.filterMap_cons]
    cases hl : lookupRel a b with
    | none => exact ih hna' hnd' hav hv'
    | some r =>
      rw [List.map_cons]
      refine List.nodup_cons.mpr ⟨?_, ih hna' hnd' hav hv'⟩
      intro hmem
      rcases List.mem_map.mp hmem with ⟨r', hr', he⟩
      rcases List.mem_filterMap.mp hr' with ⟨b', hb', hl'⟩
      have hcb : canonPair r = pairKey a b :=
        (lookupRel_canon hav (hv b (List.mem_cons_self _ _)) hl).1
      have hcb' : canonPair r' = pairKey a b' :=
        (lookupRel_canon hav (hv' b' hb') hl').1
      have hpk : pairKey a b' = pairKey a b := by rw [← hcb, ← hcb', he]
      have hnb'a : b' ≠ a := fun h => hna' (h ▸ hb')
      have : b' = b := pairKey_right_inj hnb'a (Ne.symm hnab) hpk
      exact hbr (this ▸ hb')

lemma relationships_canon_nodup :
    ∀ (ea : List String), ea.Nodup → (∀ x ∈ ea, x ∈ validEntityNames) →
      ((relationships ea).map canonPair).Nodup := by
  intro ea
  induction ea with
  | nil => intro _ _; simp [relationships]
  | cons a rest ih =>
    intro hnd hv
    obtain ⟨hna, hndr⟩ := List.nodup_cons.mp hnd
    have hv' : ∀ x ∈ rest, x ∈ validEntityNames := fun x hx => hv x (List.mem_cons_of_mem _ hx)
    simp only [relationships, List.map_append]
    rw [List.nodup_append]
    refine ⟨head_filterMap_canon_nodup rest hna hndr (hv a (List.mem_cons_self _ _)) hv',
      ih hndr hv', ?_⟩
    intro p hp1 hp2
    rcases List.mem_map.mp hp1 with ⟨r, hr, he1⟩
    rcases List.mem_filterMap.mp hr with ⟨b, hb, hl⟩
    rcases List.mem_map.mp hp2 with ⟨r', hr', he2⟩
    obtain ⟨a', b', ha', hb', hl'⟩ := mem_relationships rest r' hr'
    have h1 : p = pairKey a b :=
      he1 ▸ (lookupRel_canon (hv a (List.mem_cons_self _ _)) (hv' b hb) hl).1
    have h2 : p = pairKey a' b' :=
      he2 ▸ (lookupRel_canon (hv' a' ha') (hv' b' hb') hl').1
    have hamem : a ∈ pairKey a' b' := by
      rw [← h2, h1]
      exact mem_pairKey_iff.mpr (Or.inl rfl)
    rcases mem_pairKey_iff.mp hamem with h | h
    · exact hna (h ▸ ha')
    · exact hna (h ▸ hb')

lemma countP_le_one_of_map_nodup {α β : Type} :
    ∀ (l : List α) (f : α → β) (p : α → Bool), (l.map f).Nodup →
      (∀ x y, p x = true → p y = true → f x = f y) → l.countP p ≤ 1 := by
  intro l
  induction l with
  | nil => intro f p _ _; simp
  | cons x l ih =>
    intro f p hf hp
    rw [List.map_cons, List.nodup_cons] at hf
    rw [List.countP_cons]
    by_cases hx : p x = true
    · have hzero : l.countP p = 0 := by
        rw [List.countP_eq_zero]
        intro y hy hpy
        exact hf.1 (hp y x hpy hx ▸ List.mem_map_of_mem f hy)
      simp [hx, hzero]
    · simp only [hx, if_false]
      simpa using ih f p hf.2 hp

/-- C6: every relationship produced by `generateDataModel` is an entry
of the fixed relationship table with both endpoints in the inferred
entity set, and the list contains at most one relationship per unordered
pair of entity names (the pair is probed in both key orders and only the
first match is taken). -/
theorem generateDataModel_relationships (w : List Step) (d : String) :
    (∀ r ∈ (generateDataModel w d).relationships,
      r ∈ relationshipMap.map Prod.snd ∧
        r.fromE ∈ extractEntities w ∧ r.toE ∈ extractEntities w) ∧
    (∀ a b : String,
      (generateDataModel w d).relationships.countP
        (fun r => decide (canonPair r = pairKey a b)) ≤ 1) := by
  have hrel : (generateDataModel w d).relationships = relationships (extractEntities w) := rfl
  have hvalid := extractEntities_valid w
  have hnd := extractEntities_nodup w
  constructor
  · intro r hr
    rw [hrel] at hr
    obtain ⟨a, b, ha, hb, hl⟩ := mem_relationships _ r hr
    have hs := lookupRel_sound a (hvalid a ha) b (hvalid b hb) r (by rw [hl]; simp)
    refine ⟨hs.1, ?_, ?_⟩
    · rcases hs.2 with ⟨h1, _⟩ | ⟨h1, _⟩
      · exact h1 ▸ ha
      · exact h1 ▸ hb
    · rcases hs.2 with ⟨_, h2⟩ | ⟨_, h2⟩
      · exact h2 ▸ hb
      · exact h2 ▸ ha
  · intro a b
    rw [hrel]
    refine countP_le_one_of_map_nodup _ canonPair _
      (relationships_canon_nodup _ hnd hvalid) ?_
    intro x y hx hy
    rw [of_decide_eq_true hx, of_decide_eq_true hy]

/-- Witness for C6 at a concrete workflow inferring User, Order and
Payment: the User–Order relationship is emitted from the table with both
endpoints inferred, and no unordered pair carries two relationships. -/
theorem generateDataModel_relationships_witness :
    ((⟨"User", "Order", "one-to-many", "User places orders"⟩ : Rel) ∈
        relationshipMap.map Prod.snd ∧
      "User" ∈ extractEntities [⟨1, "User Order", "payment step", "user_action"⟩] ∧
      "Order" ∈ extractEntities [⟨1, "User Order", "payment step", "user_action"⟩]) ∧
    (generateDataModel [⟨1, "User Order", "payment step", "user_action"⟩] "d").relationships.countP
        (fun r => decide (canonPair r = pairKey "User" "Order")) ≤ 1 :=
  ⟨(generateDataModel_relationships [⟨1, "User Order", "payment step", "user_action"⟩] "d").1
      ⟨"User", "Order", "one-to-many", "User places orders"⟩ (by decide),
   (generateDataModel_relationships [⟨1, "User Order", "payment step", "user_action"⟩] "d").2
      "User" "Order"⟩

end ScenarioBuilder
